import Mathlib

/-!
Verification of the dups backup tool's core against its specification:
shallow embeddings of the rsync command-synthesis layer (src/dups/rsync.py),
the IO pooling and duration parsing (src/dups/utils.py), the Backup
lifecycle operations (src/dups/backup.py) and the retention helpers
(src/dups/helper.py), together with theorems settling the spec's claims.
-/

/-- Escaping whitelist of rsync._escape (src/dups/rsync.py:231): the regex
character class a-zA-Z0-9,._+:@%/\-* ; the backslash inside the class only
escapes the hyphen, so the backslash character itself is not in the class. -/
def escapeKeepChar (c : Char) : Bool :=
  ('a' ≤ c && c ≤ 'z') || ('A' ≤ c && c ≤ 'Z') || ('0' ≤ c && c ≤ '9') ||
  c == ',' || c == '.' || c == '_' || c == '+' || c == ':' || c == '@' ||
  c == '%' || c == '/' || c == '-' || c == '*'

/-- One character of rsync._escape's output: kept characters pass through,
every other character is backslash-escaped (re.sub with replacement \\\1). -/
def escapeChar (c : Char) : List Char :=
  if escapeKeepChar c then [c] else ['\\', c]

/-- rsync._escape (src/dups/rsync.py:222-231). -/
def rsync_escape (s : String) : String :=
  ⟨s.data.flatMap escapeChar⟩

/-- POSIX shell field splitting restricted to the constructs an escaped
token can contain: a backslash makes the next character literal, unquoted
blanks separate fields, and an unsupported construct (a quote character, or
a trailing backslash) yields none. This definition formalises the claim's
phrase "when split by a shell" and is compared with rsync._escape's output. -/
def shellSplitAux : List Char → List Char → List (List Char) → Option (List (List Char))
  | [], cur, acc => some (if cur.isEmpty then acc else acc ++ [cur])
  | c :: rest, cur, acc =>
    if c = '\\' then
      match rest with
      | [] => none
      | d :: rest2 => shellSplitAux rest2 (cur ++ [d]) acc
    else if c = '\'' ∨ c = '"' then none
    else if c = ' ' ∨ c = '\t' ∨ c = '\n' then
      shellSplitAux rest [] (if cur.isEmpty then acc else acc ++ [cur])
    else shellSplitAux rest (cur ++ [c]) acc

/-- Split a whole string into shell fields. -/
def shellSplit (s : String) : Option (List (List Char)) :=
  shellSplitAux s.data [] []

/-- Whitelist-and-backslash predicate stated by the claim: a character is
claimed to pass through unescaped iff it is alphanumeric, in the whitelist,
or a backslash. Compared against escapeKeepChar, the class the code uses. -/
def claimKeepChar (c : Char) : Bool :=
  escapeKeepChar c || c == '\\'

/-- Characters shlex.quote leaves a string unquoted for: the complement of
python's _find_unsafe class (ASCII word characters, at, percent, plus,
equals, colon, comma, dot, slash, hyphen). -/
def shlexSafeChar (c : Char) : Bool :=
  ('a' ≤ c && c ≤ 'z') || ('A' ≤ c && c ≤ 'Z') || ('0' ≤ c && c ≤ '9') || c == '_' ||
  c == '@' || c == '%' || c == '+' || c == '=' || c == ':' || c == ',' ||
  c == '.' || c == '/' || c == '-'

/-- python shlex.quote: the empty string becomes two single quotes, a string
of safe characters is returned unchanged, and anything else is wrapped in
single quotes with each inner single quote replaced by the five characters
of a quote, a double-quoted quote, and a quote. -/
def shlexQuote (s : String) : String :=
  if s = "" then "''"
  else if s.data.all shlexSafeChar then s
  else "'" ++ String.mk (s.data.flatMap
    (fun c => if c = '\'' then ['\'', '"', '\'', '"', '\''] else [c])) ++ "'"

namespace rsync

/-- rsync.Path (src/dups/rsync.py:12-38): a local or remote path. -/
structure Path where
  path : String
  host : Option String
deriving DecidableEq, Repr

/-- Path.is_local: the host is None or the empty string. -/
def Path.is_local (p : Path) : Bool :=
  match p.host with
  | none => true
  | some h => h == ""

/-- Path.resolved: the path itself if local, host:path otherwise. -/
def Path.resolved (p : Path) : String :=
  if p.is_local then p.path else (p.host.getD "") ++ ":" ++ p.path

/-- Status.EXIT_CODES (src/dups/rsync.py:48-76): every known rsync or ssh
exit code with its message. -/
def EXIT_CODES : List (Int × String) := [
  (0, "Success"),
  (1, "Syntax or usage error"),
  (2, "Protocol incompatibility"),
  (3, "Errors selecting input/output files, dirs"),
  (4, "Requested action not supported: an attempt was made to             manipulate 64-bit files on a platform that cannot support them;             or an option was specified that is supported by the client             and not by the server."),
  (5, "Error starting client-server protocol"),
  (6, "Daemon unable to append to log-file"),
  (10, "Error in socket I/O"),
  (11, "Error in file I/O"),
  (12, "Error in rsync protocol data stream"),
  (13, "Errors with program diagnostics"),
  (14, "Error in IPC code"),
  (20, "Received SIGUSR1 or SIGINT"),
  (21, "Some error returned by waitpid()"),
  (22, "Error allocating core memory buffers"),
  (23, "Partial transfer due to error"),
  (24, "Partial transfer due to vanished source files"),
  (25, "The --max-delete limit stopped deletions"),
  (30, "Timeout in data send/receive"),
  (35, "Timeout waiting for daemon connection"),
  (255, "The underlying connection failed")]

/-- Whether an exit code is a key of the EXIT_CODES table. -/
def knownExitCode (c : Int) : Bool :=
  (EXIT_CODES.map Prod.fst).contains c

/-- rsync.Status (src/dups/rsync.py:41-109): status of a concluded process. -/
structure Status where
  exit_code : Int
deriving DecidableEq, Repr

/-- Status.__init__: raises ValueError for an exit code outside the table. -/
def mkStatus (c : Int) : Except String Status :=
  if knownExitCode c then .ok ⟨c⟩
  else .error ("Invalid exit code \"" ++ toString c ++ "\"!")

/-- Status.message: lookup of the exit code in the table. -/
def Status.message (s : Status) : String :=
  (EXIT_CODES.lookup s.exit_code).getD ""

/-- Status.is_complete: the exit code is one of 0, 23, 24. -/
def Status.is_complete (s : Status) : Bool :=
  s.exit_code == 0 || s.exit_code == 23 || s.exit_code == 24

/-- The class attributes of rsync (src/dups/rsync.py:112-130) that shape a
command, together with the one filesystem fact ssh_cmd reads
(os.path.exists of the ssh config file). -/
structure Settings where
  rsync_bin : String
  ssh_bin : String
  ssh_config_file : String
  ssh_config_file_exists : Bool
  acls : Bool
  xattrs : Bool
  prune_empty_dirs : Bool
  out_format : String
  dry_run : Bool
deriving DecidableEq, Repr

/-- rsync.cmd (src/dups/rsync.py:147-171): the base command. The dry-run
flag is inserted at index 1, directly after the binary. -/
def cmd (s : Settings) : List String :=
  let c := [s.rsync_bin, "--archive", "--relative", "--human-readable",
    "--stats", "--verbose"]
  let c := if s.dry_run then c.take 1 ++ ["--dry-run"] ++ c.drop 1 else c
  let c := if s.out_format ≠ "" then c ++ ["--out-format", shlexQuote s.out_format]
    else c
  let c := if s.acls then c ++ ["--acls"] else c
  let c := if s.xattrs then c ++ ["--xattrs"] else c
  if s.prune_empty_dirs then c ++ ["--prune-empty-dirs"] else c

/-- rsync.ssh_cmd (src/dups/rsync.py:173-183). -/
def ssh_cmd (s : Settings) : List String :=
  let c := [s.ssh_bin, "-o", "StrictHostKeyChecking=no", "-o",
    "NumberOfPasswordPrompts=0"]
  if s.ssh_config_file ≠ "" ∧ s.ssh_config_file_exists = true then
    c ++ ["-F", shlexQuote s.ssh_config_file]
  else c

/-- rsync._escape applied to an include entry: a Path contributes its
resolved form, a plain string itself (src/dups/rsync.py:262-264). -/
def escapeInclude (i : Path ⊕ String) : String :=
  match i with
  | .inl p => rsync_escape p.resolved
  | .inr str => rsync_escape str

/-- The full command list rsync.sync assembles and hands to _exec
(src/dups/rsync.py:250-278): the ssh transport pair is inserted at index 1
unconditionally, cd / is prefixed, the delete and link-dest flags are
appended when link_dest is set, then escaped includes, quoted excludes and
the resolved target. -/
def sync_cmd (s : Settings) (target : Path) (includes : List (Path ⊕ String))
    (excludes : List String) (link_dest : Option String) : List String :=
  let c := cmd s
  let c := c.take 1 ++ ["-e", shlexQuote (String.intercalate " " (ssh_cmd s))] ++
    c.drop 1
  let c := ["cd", "/;"] ++ c
  let incs := includes.map escapeInclude
  let excs := excludes.flatMap (fun e => ["--exclude", shlexQuote e])
  let c := match link_dest with
    | some ld => c ++ ["--delete", "--link-dest", shlexQuote ld]
    | none => c
  c ++ incs ++ excs ++ [target.resolved]

end rsync

/-- Settings as configured by the class defaults of rsync
(src/dups/rsync.py:120-130) with dry_run left at its default True and the
ssh config file absent on disk. -/
def sampleSettings : rsync.Settings :=
  { rsync_bin := "/usr/bin/rsync", ssh_bin := "/usr/bin/ssh",
    ssh_config_file := "~/.ssh/config", ssh_config_file_exists := false,
    acls := true, xattrs := true, prune_empty_dirs := true,
    out_format := "%t %i %n", dry_run := true }

/-- str() of an optional string argument as python formats it: None prints
as the four characters None, a present string prints as itself. -/
def pyStrOpt : Option String → String
  | none => "None"
  | some s => s

/-- str() of an optional integer argument. -/
def pyStrOptInt : Option Int → String
  | none => "None"
  | some n => toString n

/-- The pool key IO.get builds (src/dups/utils.py:187): the format string
has only four placeholders for its five arguments, so str.format drops the
trailing key_file argument from the key. -/
def io_get_key (host : Option String) (port : Option Int)
    (username config_file _key_file : Option String) : String :=
  pyStrOpt host ++ "_" ++ pyStrOptInt port ++ "_" ++ pyStrOpt username ++ "_" ++
    pyStrOpt config_file

/-- The five connection parameters an IO instance is created from. -/
structure IoParams where
  host : Option String
  port : Option Int
  username : Option String
  config_file : Option String
  key_file : Option String
deriving DecidableEq, Repr

/-- IO.get (src/dups/utils.py:171-194): look the key up in the instance
pool; on a miss create an instance from the five parameters and pool it
under the key. Returns the instance handed back and the new pool. -/
def io_get (pool : List (String × IoParams)) (p : IoParams) :
    IoParams × List (String × IoParams) :=
  let key := io_get_key p.host p.port p.username p.config_file p.key_file
  match pool.lookup key with
  | some inst => (inst, pool)
  | none => (p, (key, p) :: pool)

/-- Decimal digit characters read as a natural number; none if the list is
empty or holds a non-digit. -/
def digitsToNat : List Char → Option Nat
  | [] => none
  | cs =>
    if cs.all Char.isDigit then
      some (cs.foldl (fun a c => a * 10 + (c.toNat - 48)) 0)
    else none

/-- Whitespace as python's int() strips it around a numeric literal. -/
def pyWhitespace (c : Char) : Bool :=
  c == ' ' || c == '\t' || c == '\n' || c == '\r' || c == '\x0b' || c == '\x0c'

/-- Strip leading and trailing whitespace from a character list. -/
def pyStrip (cs : List Char) : List Char :=
  (((cs.dropWhile pyWhitespace).reverse).dropWhile pyWhitespace).reverse

/-- python int() applied to a character list: surrounding whitespace is
stripped, an optional sign precedes the digits, anything else raises
ValueError (modelled as none). Digit-group underscores are not modelled. -/
def pyInt (cs : List Char) : Option Int :=
  match pyStrip cs with
  | '-' :: rest => (digitsToNat rest).map (fun n => -(n : Int))
  | '+' :: rest => (digitsToNat rest).map (fun n => (n : Int))
  | t => (digitsToNat t).map (fun n => (n : Int))

/-- utils.duration_to_timedelta (src/dups/utils.py:85-116) with the
timedelta expressed in seconds: int() of all but the last character (error
means ValueError), then the unit suffix chain; a duration whose unit is
none of s, m, h, d, w falls off the chain and returns python None,
modelled as ok none. -/
def duration_to_timedelta (s : String) : Except Unit (Option Int) :=
  let cs := s.data
  match pyInt cs.dropLast with
  | none => .error ()
  | some n =>
    match cs.getLast? with
    | some 's' => .ok (some n)
    | some 'm' => .ok (some (60 * n))
    | some 'h' => .ok (some (3600 * n))
    | some 'd' => .ok (some (86400 * n))
    | some 'w' => .ok (some (604800 * n))
    | _ => .ok none

/-- The three ways helper.remove_older_than (src/dups/helper.py:430-450)
can go: the ValueError from int() is caught and nothing is removed; a
surviving None timedelta makes now - None raise an uncaught TypeError; or
the removal set is computed. -/
inductive RemoveOlderOutcome
  | invalidDurationMessage
  | typeErrorCrash
  | removes (timestamps : List Int)
deriving DecidableEq, Repr

/-- helper.remove_older_than over timestamps in seconds: backups removed
are exactly those with timestamp at or before now minus the duration. -/
def remove_older_than (now : Int) (backups : List Int) (duration : String) :
    RemoveOlderOutcome :=
  match duration_to_timedelta duration with
  | .error _ => .invalidDurationMessage
  | .ok none => .typeErrorCrash
  | .ok (some td) => .removes (backups.filter (fun b => b ≤ now - td))

/-- Rata die of a Gregorian calendar date (year at least 1): day 1 is
January 1 of year 1, which is a Monday. Computed through the Julian day
number formula. -/
def rdOf (y m d : Nat) : Nat :=
  let a := (14 - m) / 12
  let y2 := y + 4800 - a
  let m2 := m + 12 * a - 3
  d + (153 * m2 + 2) / 5 + 365 * y2 + y2 / 4 + y2 / 400 - y2 / 100 - 1753470

/-- A timestamp as datetime.datetime carries it for backup names. -/
structure DateTime where
  year : Nat
  month : Nat
  day : Nat
  hour : Nat
  minute : Nat
  second : Nat
deriving DecidableEq, Repr

/-- Rata die of a timestamp's calendar day. -/
def DateTime.rd (t : DateTime) : Nat :=
  rdOf t.year t.month t.day

/-- Total ordering key of a timestamp: seconds since the epoch of rata die
zero. -/
def DateTime.key (t : DateTime) : Nat :=
  t.rd * 86400 + t.hour * 3600 + t.minute * 60 + t.second

/-- Weekday with python's convention, Monday 0 through Sunday 6. -/
def DateTime.weekday (t : DateTime) : Nat :=
  (t.rd - 1) % 7

/-- Index of the ISO week (Monday through Sunday) a timestamp falls in. -/
def DateTime.weekIdx (t : DateTime) : Nat :=
  (t.rd - 1) / 7

/-- Index of the calendar month a timestamp falls in. -/
def DateTime.monthIdx (t : DateTime) : Nat :=
  t.year * 12 + (t.month - 1)

/-- Gregorian leap year rule. -/
def isLeapYear (y : Nat) : Bool :=
  (y % 4 == 0 && !(y % 100 == 0)) || y % 400 == 0

/-- Days in a Gregorian month. -/
def daysInMonth (y m : Nat) : Nat :=
  if m = 1 ∨ m = 3 ∨ m = 5 ∨ m = 7 ∨ m = 8 ∨ m = 10 ∨ m = 12 then 31
  else if m = 4 ∨ m = 6 ∨ m = 9 ∨ m = 11 then 30
  else if m = 2 then (if isLeapYear y then 29 else 28)
  else 0

/-- Digit characters read as a natural number (no validity check). -/
def natOfDigits (cs : List Char) : Nat :=
  cs.foldl (fun a c => a * 10 + (c.toNat - 48)) 0

/-- datetime.strptime with Backup.NAME_FORMAT (fourteen digits, strict
field ranges): the model of the name filter in Backup.all_backups
(src/dups/backup.py:104-108). -/
def parseBackupName (s : String) : Option DateTime :=
  let cs := s.data
  if cs.length = 14 ∧ cs.all Char.isDigit then
    let y := natOfDigits (cs.take 4)
    let mo := natOfDigits ((cs.drop 4).take 2)
    let d := natOfDigits ((cs.drop 6).take 2)
    let h := natOfDigits ((cs.drop 8).take 2)
    let mi := natOfDigits ((cs.drop 10).take 2)
    let se := natOfDigits ((cs.drop 12).take 2)
    if 1 ≤ y ∧ 1 ≤ mo ∧ mo ≤ 12 ∧ 1 ≤ d ∧ d ≤ daysInMonth y mo ∧
        h ≤ 23 ∧ mi ≤ 59 ∧ se ≤ 59 then
      some ⟨y, mo, d, h, mi, se⟩
    else none
  else none

/-- The contents of a backup's .info sidecar as Backup reads and writes it:
absent keys are none (python dict.get defaults). -/
structure Info where
  valid : Option Bool := none
  backup_started_at : Option String := none
  backup_finished_at : Option String := none
  bytes_count : Option Nat := none
  size : Option Nat := none
  restored_at : List String := []
deriving DecidableEq, Repr

/-- The filesystem state the Backup operations read and write: the set of
existing paths, the directory listings, and the parsed .info sidecar per
backup directory. -/
structure FS where
  dirs : List String
  children : List (String × List String)
  infos : List (String × Info)
deriving DecidableEq, Repr

/-- io.exists of a path. -/
def FS.pathExists (fs : FS) (p : String) : Bool :=
  fs.dirs.contains p

/-- io.listdir of a path: none models FileNotFoundError. -/
def FS.listdir (fs : FS) (p : String) : Option (List String) :=
  fs.children.lookup p

/-- Backup.info: the sidecar contents, an empty dict when the file is
absent (src/dups/backup.py:227-238). -/
def FS.info (fs : FS) (bdir : String) : Info :=
  (fs.infos.lookup bdir).getD {}

/-- Backup.set_info: write the updated sidecar
(src/dups/backup.py:245-256). -/
def FS.putInfo (fs : FS) (bdir : String) (i : Info) : FS :=
  { fs with infos := (bdir, i) :: fs.infos }

/-- io.makedirs of root/name/data as Backup.backup performs it
(src/dups/backup.py:307): creates the root, the backup dir and its data
dir, and the new name appears in the root's listing. -/
def FS.makedirsBackup (fs : FS) (root name : String) : FS :=
  { fs with
    dirs := (root ++ "/" ++ name ++ "/data") :: (root ++ "/" ++ name) ::
      root :: fs.dirs,
    children :=
      (root, ((fs.children.lookup root).getD []) ++ [name]) :: fs.children }

/-- Result of Backup.all_backups: either a propagated exception from
from_name, or the kept list of names. -/
inductive ListingResult
  | raises
  | ok (names : List String)
deriving DecidableEq, Repr

/-- The loop body of Backup.all_backups (src/dups/backup.py:104-123) over
the listing: names that do not parse are skipped; from_name raises when the
entry vanished; otherwise the validity flags decide membership. -/
def allBackupsFrom (fs : FS) (root : String)
    (include_valid include_invalid : Bool) : List String → Option (List String)
  | [] => some []
  | f :: rest =>
    if (parseBackupName f).isSome then
      if fs.pathExists (root ++ "/" ++ f) then
        let keep : Bool :=
          if include_valid && include_invalid then true
          else
            let v := ((fs.info (root ++ "/" ++ f)).valid).getD false
            (include_valid && v) || (include_invalid && !v)
        match allBackupsFrom fs root include_valid include_invalid rest with
        | none => none
        | some l => some (if keep then f :: l else l)
      else none
    else allBackupsFrom fs root include_valid include_invalid rest

/-- Backup.all_backups (src/dups/backup.py:82-123): a missing root
directory's FileNotFoundError is absorbed into an empty list. -/
def all_backups (fs : FS) (root : String)
    (include_valid include_invalid : Bool) : ListingResult :=
  match fs.listdir root with
  | none => .ok []
  | some listing =>
    match allBackupsFrom fs root include_valid include_invalid listing with
    | none => .raises
    | some l => .ok l

/-- Maximum of a list of names in string order (Backup ordering is name
ordering, src/dups/backup.py:155-183). -/
def maxName : List String → Option String
  | [] => none
  | x :: xs =>
    match maxName xs with
    | none => some x
    | some y => if decide (y < x) then some x else some y

/-- Backup.latest (src/dups/backup.py:125-147): the maximal name of
all_backups, none when there is none; the outer none propagates a raise. -/
def latestName (fs : FS) (root : String)
    (include_valid include_invalid : Bool) : Option (Option String) :=
  match all_backups fs root include_valid include_invalid with
  | .raises => none
  | .ok l => some (maxName l)

/-- A python exception one of the Backup operations can raise. -/
inductive PyExc
  | backupAlreadyExists
  | backupNotFound
deriving DecidableEq, Repr

/-- What a Backup operation returns: a raised exception, a Status with its
exit code, the ValueError of Status on an unknown exit code, or remove's
None. -/
inductive OpResult
  | raised (e : PyExc)
  | status (code : Int)
  | statusValueError
  | retNone
deriving DecidableEq, Repr

/-- A Backup operation's outcome: its result, the filesystem state after
it, and how many rsync.sync invocations it issued. -/
structure RunOut where
  result : OpResult
  fs : FS
  syncCalls : Nat
deriving DecidableEq, Repr

/-- Backup.backup (src/dups/backup.py:280-329). Raises BackupAlreadyExists
first; unless dry_run, creates the data dir and stamps backup_started_at;
computes link_dest from the latest valid backup; runs one sync whose exit
code is the oracle exit_code; Status construction raises ValueError on an
unknown code; unless dry_run, stamps backup_finished_at, fills in bytes
when size is unset (sz is the oracle for io.calculate_size), and marks the
backup valid exactly when the exit code is 0. -/
def backupOp (fs : FS) (root name : String) (dry_run : Bool) (now : String)
    (exit_code : Int) (sz : Nat) : RunOut :=
  let bdir := root ++ "/" ++ name
  let ddir := bdir ++ "/data"
  if fs.pathExists bdir then ⟨.raised .backupAlreadyExists, fs, 0⟩
  else
    let fs1 := if dry_run then fs else
      let fsA := FS.makedirsBackup fs root name
      fsA.putInfo bdir { fsA.info bdir with backup_started_at := some now }
    match latestName fs1 root true false with
    | none => ⟨.raised .backupNotFound, fs1, 0⟩
    | some _linkSrc =>
      if rsync.knownExitCode exit_code = false then ⟨.statusValueError, fs1, 1⟩
      else if dry_run then ⟨.status exit_code, fs1, 1⟩
      else
        let fs2 := fs1.putInfo bdir
          { fs1.info bdir with backup_finished_at := some now }
        let fs3 := if (fs2.info bdir).size = none then
            fs2.putInfo bdir { fs2.info bdir with
              bytes_count := some (if fs2.pathExists ddir then sz else 0) }
          else fs2
        let fs4 := if exit_code = 0 then
            fs3.putInfo bdir { fs3.info bdir with valid := some true }
          else fs3
        ⟨.status exit_code, fs4, 1⟩

/-- Backup.restore (src/dups/backup.py:331-379): raises BackupNotFound
before any sync invocation; otherwise one sync runs and, unless dry_run,
restored_at is appended. -/
def restoreOp (fs : FS) (root name : String) (_target : Option String)
    (_items : List String) (dry_run : Bool) (now : String)
    (exit_code : Int) : RunOut :=
  let bdir := root ++ "/" ++ name
  if fs.pathExists bdir = false then ⟨.raised .backupNotFound, fs, 0⟩
  else
    if rsync.knownExitCode exit_code = false then ⟨.statusValueError, fs, 1⟩
    else if dry_run then ⟨.status exit_code, fs, 1⟩
    else
      let fs2 := fs.putInfo bdir { fs.info bdir with
        restored_at := (fs.info bdir).restored_at ++ [now] }
      ⟨.status exit_code, fs2, 1⟩

/-- Backup.remove (src/dups/backup.py:381-390): raises BackupNotFound when
the backup directory is absent; otherwise the whole tree is removed. -/
def removeOp (fs : FS) (root name : String) : RunOut :=
  let bdir := root ++ "/" ++ name
  if fs.pathExists bdir = false then ⟨.raised .backupNotFound, fs, 0⟩
  else
    { result := .retNone,
      fs :=
        { dirs := fs.dirs.filter
            (fun p => !(p == bdir || (bdir ++ "/").data.isPrefixOf p.data)),
          children :=
            (root, ((fs.children.lookup root).getD []).filter
              (fun f => !(f == name))) ::
            fs.children.filter
              (fun e => !(e.1 == bdir || (bdir ++ "/").data.isPrefixOf e.1.data)),
          infos := fs.infos.filter (fun e => !(e.1 == bdir)) },
      syncCalls := 0 }

/-- The empty filesystem. -/
def emptyFS : FS := ⟨[], [], []⟩

/-- Insert into a descending-sorted list of naturals. -/
def sortInsertDesc (n : Nat) : List Nat → List Nat
  | [] => [n]
  | m :: ms => if m ≤ n then n :: m :: ms else m :: sortInsertDesc n ms

/-- Sort naturals in descending order. -/
def sortDescNat (l : List Nat) : List Nat :=
  l.foldr sortInsertDesc []

/-- The element with the greatest key, preferring the earliest on ties
(python max). -/
def maxByKey (f : DateTime → Nat) : List DateTime → Option DateTime
  | [] => none
  | x :: xs =>
    match maxByKey f xs with
    | none => some x
    | some y => if f y ≤ f x then some x else some y

/-- The least key present in a list of timestamps. -/
def minKeyOpt (g : DateTime → Nat) : List DateTime → Option Nat
  | [] => none
  | x :: xs =>
    match minKeyOpt g xs with
    | none => some (g x)
    | some b => some (min (g x) b)

/-- Modelled from the spec: one retention tier of utils.rotate_gffs, which
is absent from src/dups/utils.py (src/dups/helper.py:482 and
src/tests/test_2_utils.py call it). Entries are restricted to calendar
groups strictly before the bound (the boundary of the finer tiers), the
cnt most recent groups are selected, and each group keeps one
representative: the latest entry falling on weekday_full when the tier
prefers that weekday and one exists, otherwise the latest entry of the
group. The result is in ascending group order. -/
def tierReps (dts : List DateTime) (g : DateTime → Nat) (weekday_full : Nat)
    (cnt : Nat) (bound : Option Nat) (preferWeekday : Bool) : List DateTime :=
  let pool := match bound with
    | none => dts
    | some b => dts.filter (fun x => decide (g x < b))
  let ks := (sortDescNat (pool.map g).dedup).take cnt
  (ks.filterMap (fun k =>
    let cands := pool.filter (fun x => g x == k)
    let pref := if preferWeekday then
        cands.filter (fun x => x.weekday == weekday_full)
      else []
    maxByKey DateTime.key (if pref.isEmpty then cands else pref))).reverse

/-- The five lists utils.rotate_gffs returns: per-tier kept entries and,
at index 4, the full kept list. -/
structure GffsResult where
  daysKept : List DateTime
  weeksKept : List DateTime
  monthsKept : List DateTime
  yearsKept : List DateTime
  keep : List DateTime
deriving DecidableEq, Repr

/-- Modelled from the spec: utils.rotate_gffs, absent from
src/dups/utils.py. Following spec section 4.4, the day tier keeps the most
recent entry of each of the `days` most recent calendar days; the week
tier walks ISO weeks strictly before the day tier's earliest week keeping
the weekday_full entry (or the latest of the week) for `weeks` weeks; the
month and year tiers do the same per calendar month and year, each
starting strictly before the earliest group the finer tiers kept; the kept
list is the concatenation of the tiers, oldest tier first, each
ascending. -/
def rotate_gffs (dts : List DateTime) (days weeks months years : Nat)
    (weekday_full : Nat) : GffsResult :=
  let daysL := tierReps dts DateTime.rd weekday_full days none false
  let wb := minKeyOpt DateTime.weekIdx daysL
  let weeksL := tierReps dts DateTime.weekIdx weekday_full weeks wb true
  let mb := minKeyOpt DateTime.monthIdx (daysL ++ weeksL)
  let monthsL := tierReps dts DateTime.monthIdx weekday_full months mb true
  let yb := minKeyOpt (fun t => t.year) (daysL ++ weeksL ++ monthsL)
  let yearsL := tierReps dts (fun t => t.year) weekday_full years yb true
  ⟨daysL, weeksL, monthsL, yearsL, yearsL ++ monthsL ++ weeksL ++ daysL⟩

/-- helper.remove_gffs (src/dups/helper.py:466-490): the removal set is
every backup date not in the kept list (index 4 of rotate_gffs). -/
def remove_gffs (backup_dates : List DateTime)
    (days weeks months years weekday_full : Nat) : List DateTime :=
  let keep := (rotate_gffs backup_dates days weeks months years
    weekday_full).keep
  backup_dates.filter (fun dt => !(keep.contains dt))

/-- Four backup dates used to instantiate the rotation theorem. -/
def gffsSampleInput : List DateTime :=
  [⟨2017, 12, 31, 0, 0, 0⟩, ⟨2017, 12, 30, 0, 0, 0⟩,
   ⟨2017, 12, 24, 0, 0, 0⟩, ⟨2017, 11, 26, 0, 0, 0⟩]

/-- Day tier of the sample: the most recent calendar day. -/
def gffsSampleDays : List DateTime := [⟨2017, 12, 31, 0, 0, 0⟩]

/-- Week tier of the sample: the Sunday of the preceding ISO week. -/
def gffsSampleWeeks : List DateTime := [⟨2017, 12, 24, 0, 0, 0⟩]

/-- Month tier of the sample: the last Sunday of the preceding month. -/
def gffsSampleMonths : List DateTime := [⟨2017, 11, 26, 0, 0, 0⟩]

/-- Year tier of the sample: empty, no entry before 2017. -/
def gffsSampleYears : List DateTime := []

/-- The kept list of the sample. -/
def gffsSampleKeep : List DateTime :=
  gffsSampleYears ++ gffsSampleMonths ++ gffsSampleWeeks ++ gffsSampleDays

example : rsync_escape "simple folder" = "simple\\ folder" := by decide

example : rsync_escape "*" = "*" := by decide

example : rsync_escape "\\" = "\\\\" := by decide

example : (⟨2017, 12, 31, 0, 0, 0⟩ : DateTime).weekday = 6 := by decide

example : (⟨2017, 12, 25, 0, 0, 0⟩ : DateTime).weekday = 0 := by decide

example : (⟨2000, 3, 1, 0, 0, 0⟩ : DateTime).weekday = 2 := by decide

example : (⟨1, 1, 1, 0, 0, 0⟩ : DateTime).rd = 1 := by decide

theorem shellSplitAux_escape (l : List Char) : ∀ cur acc,
    shellSplitAux (l.flatMap escapeChar) cur acc =
      some (if (cur ++ l).isEmpty then acc else acc ++ [cur ++ l]) := by
  induction l with
  | nil => intro cur acc; simp [shellSplitAux]
  | cons c t ih =>
    intro cur acc
    rcases Bool.eq_false_or_eq_true (escapeKeepChar c) with hk | hk
    · have hbs : c ≠ '\\' := by
        intro h; subst h; exact absurd hk (by decide)
      have hq1 : c ≠ '\'' := by
        intro h; subst h; exact absurd hk (by decide)
      have hq2 : c ≠ '"' := by
        intro h; subst h; exact absurd hk (by decide)
      have hs1 : c ≠ ' ' := by
        intro h; subst h; exact absurd hk (by decide)
      have hs2 : c ≠ '\t' := by
        intro h; subst h; exact absurd hk (by decide)
      have hs3 : c ≠ '\n' := by
        intro h; subst h; exact absurd hk (by decide)
      have hstep : (c :: t).flatMap escapeChar = c :: t.flatMap escapeChar := by
        simp [escapeChar, hk]
      rw [hstep]
      rw [shellSplitAux.eq_def]
      simp only [if_neg hbs, if_neg (by simp [hq1, hq2] : ¬ (c = '\'' ∨ c = '"')),
        if_neg (by simp [hs1, hs2, hs3] : ¬ (c = ' ' ∨ c = '\t' ∨ c = '\n'))]
      rw [ih (cur ++ [c]) acc]
      simp
    · have hstep : (c :: t).flatMap escapeChar = '\\' :: c :: t.flatMap escapeChar := by
        simp [escapeChar, hk]
      rw [hstep]
      rw [shellSplitAux.eq_def]
      simp only [reduceIte]
      rw [ih (cur ++ [c]) acc]
      simp

theorem shellSplit_escape (l : List Char) (h : l ≠ []) :
    shellSplit (rsync_escape ⟨l⟩) = some [l] := by
  have : (rsync_escape ⟨l⟩).data = l.flatMap escapeChar := rfl
  rw [shellSplit, this, shellSplitAux_escape l [] []]
  simp [h]

/-- C2 counterexample: the claim's whitelist admits the backslash, but
rsync._escape escapes a lone backslash into two characters instead of
passing it through. -/
theorem rsync_escape_backslash_cex :
    claimKeepChar '\\' = true ∧ rsync_escape "\\" = "\\\\" ∧
    ("\\\\" : String) ≠ "\\" := by
  refine ⟨by decide, by decide, by decide⟩

/-- C2 (amended): a character passes through rsync._escape unescaped iff it
is alphanumeric or one of the whitelist comma dot underscore plus colon at
percent slash hyphen star (the backslash is escaped like any other
character); any escaped nonempty token splits back, under shell field
splitting, to exactly the original token, in particular a token containing
a space; a token consisting only of the wildcard star is left unchanged. -/
theorem rsync_escape_spec :
    (∀ c : Char, escapeChar c = [c] ↔ escapeKeepChar c = true) ∧
    (∀ c : Char, escapeKeepChar c = false → escapeChar c = ['\\', c]) ∧
    (∀ l : List Char, l ≠ [] → shellSplit (rsync_escape ⟨l⟩) = some [l]) ∧
    shellSplit (rsync_escape "simple folder") = some ["simple folder".data] ∧
    rsync_escape "*" = "*" := by
  refine ⟨?_, ?_, shellSplit_escape, by decide, by decide⟩
  · intro c
    constructor
    · intro h
      rcases Bool.eq_false_or_eq_true (escapeKeepChar c) with hk | hk
      · exact hk
      · simp [escapeChar, hk] at h
    · intro h; simp [escapeChar, h]
  · intro c h; simp [escapeChar, h]

/-- C3: constructing a Status from a code outside the EXIT_CODES table
fails with the ValueError message, and for every code in the table the
construction succeeds and is_complete holds exactly for 0, 23 and 24. -/
theorem status_code_table (c : Int) :
    (rsync.knownExitCode c = false →
      rsync.mkStatus c = .error ("Invalid exit code \"" ++ toString c ++ "\"!")) ∧
    (rsync.knownExitCode c = true →
      rsync.mkStatus c = .ok ⟨c⟩ ∧
      ((rsync.Status.mk c).is_complete = true ↔ c = 0 ∨ c = 23 ∨ c = 24)) := by
  constructor
  · intro h; simp [rsync.mkStatus, h]
  · intro h
    refine ⟨by simp [rsync.mkStatus, h], ?_⟩
    simp [rsync.Status.is_complete, or_assoc]

/-- C7 counterexample: for a local destination the synthesized command
still carries the ssh transport flag -e, and the dry-run flag is not
immediately after the binary name (the transport pair precedes it). -/
theorem sync_cmd_local_ssh_cex :
    (rsync.Path.mk "/tmp/dest" none).is_local = true ∧
    "-e" ∈ rsync.sync_cmd sampleSettings ⟨"/tmp/dest", none⟩ [] [] none ∧
    (rsync.sync_cmd sampleSettings ⟨"/tmp/dest", none⟩ [] [] none).take 6 =
      ["cd", "/;", "/usr/bin/rsync", "-e",
       "'/usr/bin/ssh -o StrictHostKeyChecking=no -o NumberOfPasswordPrompts=0'",
       "--dry-run"] := by
  refine ⟨by decide, by decide, by decide⟩

/-- C7 (amended): for every settings, target, includes, excludes and
link_dest, the synthesized command is exactly: cd /; the binary; the ssh
transport pair (always, remote or not); the dry-run flag when set; the
fixed base flags; the quoted output format when nonempty; the individually
enabled optional flags; the delete and link-dest flags when link_dest is
supplied; the escaped includes; the quoted exclude pairs; and the resolved
destination last. -/
theorem sync_cmd_order (s : rsync.Settings) (t : rsync.Path)
    (incs : List (rsync.Path ⊕ String)) (excs : List String)
    (ld : Option String) :
    rsync.sync_cmd s t incs excs ld =
      ["cd", "/;", s.rsync_bin, "-e",
        shlexQuote (String.intercalate " " (rsync.ssh_cmd s))] ++
      (if s.dry_run then ["--dry-run"] else []) ++
      ["--archive", "--relative", "--human-readable", "--stats", "--verbose"] ++
      (if s.out_format ≠ "" then ["--out-format", shlexQuote s.out_format] else []) ++
      (if s.acls then ["--acls"] else []) ++
      (if s.xattrs then ["--xattrs"] else []) ++
      (if s.prune_empty_dirs then ["--prune-empty-dirs"] else []) ++
      (match ld with
        | some l => ["--delete", "--link-dest", shlexQuote l]
        | none => []) ++
      incs.map rsync.escapeInclude ++
      excs.flatMap (fun e => ["--exclude", shlexQuote e]) ++ [t.resolved] := by
  cases hd : s.dry_run <;>
    cases ho : decide (s.out_format ≠ "") <;>
    cases ha : s.acls <;>
    cases hx : s.xattrs <;>
    cases hp : s.prune_empty_dirs <;>
    cases ld <;>
    simp_all [rsync.sync_cmd, rsync.cmd]

/-- C8: two IO.get calls that differ only in key_file produce the same pool
key, so the second call returns the instance created with the first call's
key_file instead of establishing a distinct instance. -/
theorem io_get_key_file_ignored :
    io_get_key (some "host") (some 22) (some "user") none (some "/tmp/a") =
      io_get_key (some "host") (some 22) (some "user") none (some "/tmp/b") ∧
    (io_get
        (io_get [] ⟨some "host", some 22, some "user", none, some "/tmp/a"⟩).2
        ⟨some "host", some 22, some "user", none, some "/tmp/b"⟩).1 =
      ⟨some "host", some 22, some "user", none, some "/tmp/a"⟩ ∧
    (⟨some "host", some 22, some "user", none, some "/tmp/a"⟩ : IoParams) ≠
      ⟨some "host", some 22, some "user", none, some "/tmp/b"⟩ := by
  refine ⟨by decide, by decide, by decide⟩

/-- C6: duration parsing accepts integer-with-unit tokens for units s, m,
h, d, w; a malformed integer raises the handled ValueError; but a token
with an unrecognized unit character makes duration_to_timedelta return
None, so remove_older_than crashes with an uncaught TypeError rather than
failing with an InvalidDuration error; for "1w" exactly the backups with
timestamp at or before now - 7 days are removed. -/
theorem remove_older_than_unknown_unit_crashes :
    duration_to_timedelta "1y" = .ok none ∧
    remove_older_than 0 [0] "1y" = .typeErrorCrash ∧
    duration_to_timedelta "tomorrow" = .error () ∧
    remove_older_than 0 [0] "tomorrow" = .invalidDurationMessage ∧
    duration_to_timedelta "1w" = .ok (some 604800) ∧
    (∀ now : Int, ∀ backups : List Int,
      remove_older_than now backups "1w" =
        .removes (backups.filter (fun b => b ≤ now - 604800))) := by
  refine ⟨by rfl, by rfl, by rfl, by rfl, by rfl, ?_⟩
  intro now backups
  rfl

theorem info_valid_of_lookup_none (fs : FS) (b : String)
    (h : fs.infos.lookup b = none) : (fs.info b).valid = none := by
  simp [FS.info, h]

theorem info_putInfo_self (fs : FS) (b : String) (i : Info) :
    (fs.putInfo b i).info b = i := by
  simp [FS.putInfo, FS.info, List.lookup]

theorem info_makedirsBackup (fs : FS) (root name b : String) :
    (FS.makedirsBackup fs root name).info b = fs.info b := by
  simp [FS.makedirsBackup, FS.info]

/-- A dry run of Backup.backup leaves the filesystem state untouched. -/
theorem backupOp_dry_run_state (fs : FS) (root name : String) (now : String)
    (code : Int) (sz : Nat) : (backupOp fs root name true now code sz).fs = fs := by
  unfold backupOp
  simp only [reduceIte]
  split
  · rfl
  · split
    · rfl
    · split
      · rfl
      · rfl

/-- Every branch of Backup.backup other than a non-dry run that ends with
exit code 0 leaves the backup's validity unset. -/
theorem backupOp_valid_none (fs : FS) (root name : String) (dry : Bool)
    (now : String) (code : Int) (sz : Nat)
    (h2 : fs.infos.lookup (root ++ "/" ++ name) = none)
    (hcase : dry = true ∨ code ≠ 0) :
    ((backupOp fs root name dry now code sz).fs.info
      (root ++ "/" ++ name)).valid = none := by
  have hb : (fs.info (root ++ "/" ++ name)).valid = none :=
    info_valid_of_lookup_none fs _ h2
  cases dry with
  | true =>
    rw [backupOp_dry_run_state]
    exact hb
  | false =>
    have hc : code ≠ 0 := by
      rcases hcase with h | h
      · exact absurd h (by simp)
      · exact h
    unfold backupOp
    simp only [Bool.false_eq_true, reduceIte]
    split
    · exact hb
    · have hv1 : (((FS.makedirsBackup fs root name).putInfo (root ++ "/" ++ name)
          { (FS.makedirsBackup fs root name).info (root ++ "/" ++ name) with
            backup_started_at := some now }).info (root ++ "/" ++ name)).valid =
          none := by
        rw [info_putInfo_self]
        simpa [info_makedirsBackup] using hb
      split
      · exact hv1
      · split
        · exact hv1
        · simp only [if_neg hc]
          split
          · rw [info_putInfo_self]
            simpa [info_putInfo_self] using hv1
          · rw [info_putInfo_self]
            simpa using hv1

/-- C5: Backup.backup marks the backup valid only for a non-dry run whose
exit code is 0: a dry run leaves the state (hence validity) untouched, and
a non-dry run with any other exit code leaves validity unset. -/
theorem backup_marks_valid_only_on_success (fs : FS) (root name : String)
    (dry : Bool) (now : String) (code : Int) (sz : Nat)
    (h2 : fs.infos.lookup (root ++ "/" ++ name) = none) :
    (dry = true → (backupOp fs root name dry now code sz).fs = fs) ∧
    (((backupOp fs root name dry now code sz).fs.info
        (root ++ "/" ++ name)).valid = some true → dry = false ∧ code = 0) ∧
    (dry = false → code ≠ 0 →
      ((backupOp fs root name dry now code sz).fs.info
        (root ++ "/" ++ name)).valid = none) := by
  refine ⟨?_, ?_, ?_⟩
  · intro h; subst h; exact backupOp_dry_run_state fs root name now code sz
  · intro h
    by_cases hd : dry = true
    · rw [backupOp_valid_none fs root name dry now code sz h2 (Or.inl hd)] at h
      exact Option.noConfusion h
    · rw [Bool.not_eq_true] at hd
      refine ⟨hd, ?_⟩
      by_contra hc0
      rw [backupOp_valid_none fs root name dry now code sz h2 (Or.inr hc0)] at h
      exact Option.noConfusion h
  · intro hd hc
    exact backupOp_valid_none fs root name dry now code sz h2 (Or.inr hc)

theorem backup_marks_valid_only_on_success_witness :
    (false = true → (backupOp emptyFS "/bk" "19900101000000" false "t" 23 5).fs =
      emptyFS) ∧
    (((backupOp emptyFS "/bk" "19900101000000" false "t" 23 5).fs.info
        ("/bk" ++ "/" ++ "19900101000000")).valid = some true →
      false = false ∧ (23 : Int) = 0) ∧
    (false = false → (23 : Int) ≠ 0 →
      ((backupOp emptyFS "/bk" "19900101000000" false "t" 23 5).fs.info
        ("/bk" ++ "/" ++ "19900101000000")).valid = none) :=
  backup_marks_valid_only_on_success emptyFS "/bk" "19900101000000" false "t" 23 5 rfl

/-- C4 counterexample: a non-dry run that ends with partial-transfer exit
code 23 returns that status but does not mark the backup valid. -/
theorem backup_partial_transfer_cex :
    (backupOp emptyFS "/bk" "19900101000000" false "t" 23 5).result =
      .status 23 ∧
    ((backupOp emptyFS "/bk" "19900101000000" false "t" 23 5).fs.info
      ("/bk" ++ "/" ++ "19900101000000")).valid ≠ some true := by
  refine ⟨by decide, by decide⟩

/-- C4 (amended): a non-dry Backup.backup run that ends with a
partial-transfer exit code (23 or 24) leaves the backup's validity unset;
only exit code 0 marks it valid. -/
theorem backup_partial_transfer_not_valid (fs : FS) (root name now : String)
    (code : Int) (sz : Nat)
    (h2 : fs.infos.lookup (root ++ "/" ++ name) = none)
    (hc : code = 23 ∨ code = 24) :
    ((backupOp fs root name false now code sz).fs.info
      (root ++ "/" ++ name)).valid = none := by
  refine backupOp_valid_none fs root name false now code sz h2 (Or.inr ?_)
  rcases hc with h | h <;> simp [h]

theorem backup_partial_transfer_not_valid_witness :
    ((backupOp emptyFS "/bk" "19900101000000" false "t" 23 5).fs.info
      ("/bk" ++ "/" ++ "19900101000000")).valid = none :=
  backup_partial_transfer_not_valid emptyFS "/bk" "19900101000000" "t" 23 5 rfl
    (Or.inl rfl)

/-- C9: Backup.backup on an existing backup_dir raises BackupAlreadyExists
with the state unchanged and no sync invocation; Backup.restore and
Backup.remove on a missing backup_dir raise BackupNotFound with the state
unchanged and no sync invocation. -/
theorem backup_lifecycle_preconditions (fs : FS) (root name : String)
    (dry : Bool) (now : String) (code : Int) (sz : Nat)
    (target : Option String) (items : List String) :
    (fs.pathExists (root ++ "/" ++ name) = true →
      backupOp fs root name dry now code sz =
        ⟨.raised .backupAlreadyExists, fs, 0⟩) ∧
    (fs.pathExists (root ++ "/" ++ name) = false →
      restoreOp fs root name target items dry now code =
        ⟨.raised .backupNotFound, fs, 0⟩) ∧
    (fs.pathExists (root ++ "/" ++ name) = false →
      removeOp fs root name = ⟨.raised .backupNotFound, fs, 0⟩) := by
  refine ⟨fun h => ?_, fun h => ?_, fun h => ?_⟩
  · unfold backupOp; simp [h]
  · unfold restoreOp; simp [h]
  · unfold removeOp; simp [h]

/-- C10: Backup.all_backups returns the empty list instead of raising when
the root directory does not exist, for every combination of the validity
flags. -/
theorem all_backups_missing_root (fs : FS) (root : String)
    (include_valid include_invalid : Bool)
    (h : fs.children.lookup root = none) :
    all_backups fs root include_valid include_invalid = .ok [] := by
  unfold all_backups FS.listdir
  simp [h]

theorem all_backups_missing_root_witness :
    all_backups emptyFS "/bk" true true = .ok [] :=
  all_backups_missing_root emptyFS "/bk" true true rfl

theorem maxByKey_mem {f : DateTime → Nat} :
    ∀ {l : List DateTime} {r : DateTime}, maxByKey f l = some r → r ∈ l := by
  intro l
  induction l with
  | nil => intro r h; simp [maxByKey] at h
  | cons x xs ih =>
    intro r h
    cases hm : maxByKey f xs with
    | none =>
      have h2 : some x = some r := by rw [maxByKey, hm] at h; exact h
      cases h2
      exact List.mem_cons_self x xs
    | some y =>
      have h2 : (if f y ≤ f x then some x else some y) = some r := by
        rw [maxByKey, hm] at h; exact h
      by_cases hle : f y ≤ f x
      · rw [if_pos hle] at h2
        cases h2
        exact List.mem_cons_self x xs
      · rw [if_neg hle] at h2
        cases h2
        exact List.mem_cons_of_mem x (ih hm)

theorem minKeyOpt_eq_none {g : DateTime → Nat} :
    ∀ {l : List DateTime}, minKeyOpt g l = none → l = [] := by
  intro l h
  cases l with
  | nil => rfl
  | cons x xs =>
    exfalso
    cases hm : minKeyOpt g xs with
    | none =>
      have h2 : (some (g x) : Option Nat) = none := by
        rw [minKeyOpt, hm] at h; exact h
      cases h2
    | some b =>
      have h2 : (some (min (g x) b) : Option Nat) = none := by
        rw [minKeyOpt, hm] at h; exact h
      cases h2

theorem minKeyOpt_le {g : DateTime → Nat} :
    ∀ {l : List DateTime} {b : Nat}, minKeyOpt g l = some b →
      ∀ x ∈ l, b ≤ g x := by
  intro l
  induction l with
  | nil => intro b h; simp [minKeyOpt] at h
  | cons x xs ih =>
    intro b h y hy
    cases hm : minKeyOpt g xs with
    | none =>
      have hxs : xs = [] := minKeyOpt_eq_none hm
      subst hxs
      have h2 : (some (g x) : Option Nat) = some b := by
        rw [minKeyOpt, hm] at h; exact h
      cases h2
      rcases List.mem_singleton.mp hy with rfl
      exact Nat.le_refl _
    | some b0 =>
      have h2 : (some (min (g x) b0) : Option Nat) = some b := by
        rw [minKeyOpt, hm] at h; exact h
      cases h2
      rcases List.mem_cons.mp hy with rfl | hy2
      · exact Nat.min_le_left _ _
      · exact Nat.le_trans (Nat.min_le_right _ _) (ih hm y hy2)

theorem tierReps_mem_pool {dts : List DateTime} {g : DateTime → Nat}
    {wf cnt : Nat} {bnd : Option Nat} {p : Bool} {x : DateTime}
    (hx : x ∈ tierReps dts g wf cnt bnd p) :
    x ∈ (match bnd with
      | none => dts
      | some b => dts.filter (fun y => decide (g y < b))) := by
  unfold tierReps at hx
  rw [List.mem_reverse, List.mem_filterMap] at hx
  obtain ⟨k, _, hsome⟩ := hx
  have hmem := maxByKey_mem hsome
  set pool := (match bnd with
    | none => dts
    | some b => dts.filter (fun y => decide (g y < b))) with hp
  by_cases hpe : (if p = true then
      (pool.filter (fun y => g y == k)).filter (fun y => y.weekday == wf)
    else ([] : List DateTime)).isEmpty
  · rw [if_pos hpe] at hmem
    exact (List.mem_filter.mp hmem).1
  · rw [if_neg hpe] at hmem
    cases p with
    | true =>
      simp only [if_pos rfl] at hmem
      exact (List.mem_filter.mp (List.mem_filter.mp hmem).1).1
    | false =>
      simp at hmem

theorem tierReps_subset {dts : List DateTime} {g : DateTime → Nat}
    {wf cnt : Nat} {bnd : Option Nat} {p : Bool} {x : DateTime}
    (hx : x ∈ tierReps dts g wf cnt bnd p) : x ∈ dts := by
  have h := tierReps_mem_pool hx
  cases bnd with
  | none => exact h
  | some b => exact (List.mem_filter.mp h).1

theorem tierReps_lt_bound {dts : List DateTime} {g : DateTime → Nat}
    {wf cnt b : Nat} {p : Bool} {x : DateTime}
    (hx : x ∈ tierReps dts g wf cnt (some b) p) : g x < b := by
  have h := tierReps_mem_pool hx
  exact of_decide_eq_true (List.mem_filter.mp h).2

theorem tierReps_length_le (dts : List DateTime) (g : DateTime → Nat)
    (wf cnt : Nat) (bnd : Option Nat) (p : Bool) :
    (tierReps dts g wf cnt bnd p).length ≤ cnt := by
  unfold tierReps
  rw [List.length_reverse]
  refine Nat.le_trans (List.length_filterMap_le _ _) ?_
  rw [List.length_take]
  exact Nat.min_le_left _ _

/-- C1: the GFFS rotation invoked by remove_gffs keeps the concatenation
of four tiers (years, months, weeks, days, each capped by its retention
count and drawn from the input), the coarser tiers never overlap the finer
ones (each stops at the boundary the finer tiers set), and the removal set
is exactly the input minus the kept list. -/
theorem rotate_gffs_spec (dts : List DateTime)
    (days weeks months years weekday_full : Nat)
    (dl wl ml yl kp : List DateTime)
    (h : rotate_gffs dts days weeks months years weekday_full =
      ⟨dl, wl, ml, yl, kp⟩) :
    kp = yl ++ ml ++ wl ++ dl ∧
    (∀ x ∈ kp, x ∈ dts) ∧
    (∀ x ∈ wl, x ∉ dl) ∧
    (∀ x ∈ ml, x ∉ dl ∧ x ∉ wl) ∧
    (∀ x ∈ yl, x ∉ dl ∧ x ∉ wl ∧ x ∉ ml) ∧
    dl.length ≤ days ∧ wl.length ≤ weeks ∧ ml.length ≤ months ∧
    yl.length ≤ years ∧
    remove_gffs dts days weeks months years weekday_full =
      dts.filter (fun x => !(kp.contains x)) := by
  set dl0 := tierReps dts DateTime.rd weekday_full days none false with hdl0
  set wl0 := tierReps dts DateTime.weekIdx weekday_full weeks
    (minKeyOpt DateTime.weekIdx dl0) true with hwl0
  set ml0 := tierReps dts DateTime.monthIdx weekday_full months
    (minKeyOpt DateTime.monthIdx (dl0 ++ wl0)) true with hml0
  set yl0 := tierReps dts (fun t => t.year) weekday_full years
    (minKeyOpt (fun t => t.year) (dl0 ++ wl0 ++ ml0)) true with hyl0
  have hr : rotate_gffs dts days weeks months years weekday_full =
      ⟨dl0, wl0, ml0, yl0, yl0 ++ ml0 ++ wl0 ++ dl0⟩ := rfl
  rw [hr] at h
  rw [GffsResult.mk.injEq] at h
  obtain ⟨e1, e2, e3, e4, e5⟩ := h
  subst e1; subst e2; subst e3; subst e4; subst e5
  have hwd : ∀ x ∈ wl0, x ∉ dl0 := by
    intro x hxw hxd
    cases hwb : minKeyOpt DateTime.weekIdx dl0 with
    | none =>
      rw [minKeyOpt_eq_none hwb] at hxd
      exact absurd hxd (List.not_mem_nil x)
    | some b =>
      rw [hwl0, hwb] at hxw
      have h1 : DateTime.weekIdx x < b := tierReps_lt_bound hxw
      have h2 : b ≤ DateTime.weekIdx x := minKeyOpt_le hwb x hxd
      omega
  have hmo : ∀ x ∈ ml0, x ∉ dl0 ++ wl0 := by
    intro x hxm hxin
    cases hmb : minKeyOpt DateTime.monthIdx (dl0 ++ wl0) with
    | none =>
      rw [minKeyOpt_eq_none hmb] at hxin
      exact absurd hxin (List.not_mem_nil x)
    | some b =>
      rw [hml0, hmb] at hxm
      have h1 : DateTime.monthIdx x < b := tierReps_lt_bound hxm
      have h2 : b ≤ DateTime.monthIdx x := minKeyOpt_le hmb x hxin
      omega
  have hyo : ∀ x ∈ yl0, x ∉ dl0 ++ wl0 ++ ml0 := by
    intro x hxy hxin
    cases hyb : minKeyOpt (fun t => t.year) (dl0 ++ wl0 ++ ml0) with
    | none =>
      rw [minKeyOpt_eq_none hyb] at hxin
      exact absurd hxin (List.not_mem_nil x)
    | some b =>
      rw [hyl0, hyb] at hxy
      have h1 : x.year < b := tierReps_lt_bound hxy
      have h2 : b ≤ x.year := minKeyOpt_le hyb x hxin
      omega
  refine ⟨rfl, ?_, hwd, ?_, ?_, ?_, ?_, ?_, ?_, ?_⟩
  · intro x hx
    rcases List.mem_append.mp hx with hx | hxd
    · rcases List.mem_append.mp hx with hx | hxw
      · rcases List.mem_append.mp hx with hxy | hxm
        · exact tierReps_subset (hyl0 ▸ hxy)
        · exact tierReps_subset (hml0 ▸ hxm)
      · exact tierReps_subset (hwl0 ▸ hxw)
    · exact tierReps_subset (hdl0 ▸ hxd)
  · intro x hxm
    have h1 := hmo x hxm
    exact ⟨fun hd => h1 (List.mem_append.mpr (Or.inl hd)),
      fun hw => h1 (List.mem_append.mpr (Or.inr hw))⟩
  · intro x hxy
    have h1 := hyo x hxy
    refine ⟨fun hd => h1 ?_, fun hw => h1 ?_, fun hm => h1 ?_⟩
    · exact List.mem_append.mpr (Or.inl (List.mem_append.mpr (Or.inl hd)))
    · exact List.mem_append.mpr (Or.inl (List.mem_append.mpr (Or.inr hw)))
    · exact List.mem_append.mpr (Or.inr hm)
  · rw [hdl0]; exact tierReps_length_le dts DateTime.rd weekday_full days none false
  · rw [hwl0]; exact tierReps_length_le dts DateTime.weekIdx weekday_full weeks _ true
  · rw [hml0]; exact tierReps_length_le dts DateTime.monthIdx weekday_full months _ true
  · rw [hyl0]; exact tierReps_length_le dts (fun t => t.year) weekday_full years _ true
  · unfold remove_gffs
    rw [hr]

theorem rotate_gffs_spec_witness :
    gffsSampleKeep = gffsSampleYears ++ gffsSampleMonths ++ gffsSampleWeeks ++
      gffsSampleDays ∧
    (∀ x ∈ gffsSampleKeep, x ∈ gffsSampleInput) ∧
    (∀ x ∈ gffsSampleWeeks, x ∉ gffsSampleDays) ∧
    (∀ x ∈ gffsSampleMonths, x ∉ gffsSampleDays ∧ x ∉ gffsSampleWeeks) ∧
    (∀ x ∈ gffsSampleYears,
      x ∉ gffsSampleDays ∧ x ∉ gffsSampleWeeks ∧ x ∉ gffsSampleMonths) ∧
    gffsSampleDays.length ≤ 1 ∧ gffsSampleWeeks.length ≤ 1 ∧
    gffsSampleMonths.length ≤ 1 ∧ gffsSampleYears.length ≤ 1 ∧
    remove_gffs gffsSampleInput 1 1 1 1 6 =
      gffsSampleInput.filter (fun x => !(gffsSampleKeep.contains x)) :=
  rotate_gffs_spec gffsSampleInput 1 1 1 1 6 gffsSampleDays gffsSampleWeeks
    gffsSampleMonths gffsSampleYears gffsSampleKeep (by rfl)
